import Mathlib

/-!
# Verification of the `mpi-plus` communicator wrapper

A shallow embedding of the `mpi::Communicator` / `mpi::Request` / `mpi::Status`
classes of `src/mpi-plus.cpp` (and the near-duplicate older translation unit
`src/unnamed/part_000`), together with theorems settling the frozen claims
about them.

Modelling conventions:
* A byte is modelled as a `Nat`; a `std::string` used as a byte buffer is a
  `List Nat`.
* The transport substrate (the `MPI_*` calls, which are external to the
  repository) is modelled from its standard contract: the pending traffic of a
  communicator, as seen by one receiving rank, is a FIFO `List Message`;
  probing inspects the first matching message without consuming it; receiving
  consumes it.  Blocking calls that would never return (no matching message
  ever arrives) are modelled by `Option.none`.
* C++ exceptions are modelled with `Except CppError` (or the `CRes` result
  type where reaching undefined behaviour must also be representable).
* C++ integral `%` and `/` with divisor `0` are undefined behaviour; `cppMod`
  returns `none` there, and `CRes.ub` marks a call whose evaluation reaches
  such an operation.
-/

namespace mpi

/-- `MPI_ANY_SOURCE`: an implementation-defined negative sentinel rank. -/
def any_source : Int := -1

/-- `MPI_ANY_TAG`: an implementation-defined negative sentinel tag. -/
def any_tag : Int := -1

/-- One pending point-to-point message as seen by the receiving rank:
the sender's rank, the tag, and the payload bytes. -/
structure Message where
  src : Int
  tg : Int
  data : List Nat
deriving DecidableEq, Repr

/-- The `(source, tag)` matching rule of the transport: a wildcard matches
anything, otherwise the field must be equal. -/
def msgMatches (source tag : Int) (m : Message) : Bool :=
  (source == any_source || m.src == source) && (tag == any_tag || m.tg == tag)

/-- The metadata an `MPI_Status` describes: source rank, tag, and byte count
(as reported by `MPI_Get_count` with `MPI_CHAR`). -/
structure MsgMeta where
  src : Int
  tg : Int
  cnt : Int
deriving DecidableEq, Repr

/-- The metadata of a concrete pending message. -/
def metaOf (m : Message) : MsgMeta :=
  { src := m.src, tg := m.tg, cnt := Int.ofNat m.data.length }

/-- `mpi::Status`: a wrapper around `MPI_Status` with a null flag.  The
default-constructed status (`status = none`) has `is_null() == true`;
a status built from an `MPI_Status` holds its metadata. -/
structure Status where
  status : Option MsgMeta
deriving DecidableEq, Repr

/-- `Status::is_null()`. -/
def Status.is_null (s : Status) : Bool :=
  s.status.isNone

/-- `Status::count()`: `0` on a null status, else the byte count obtained by
`MPI_Get_count(&status, MPI_CHAR, &count)`. -/
def Status.count (s : Status) : Int :=
  match s.status with
  | none => 0
  | some m => m.cnt

/-- `Status::source()`: `-1` on a null status, else `status.MPI_SOURCE`. -/
def Status.source (s : Status) : Int :=
  match s.status with
  | none => -1
  | some m => m.src

/-- `Status::tag()`: `-1` on a null status, else `status.MPI_TAG`. -/
def Status.tag (s : Status) : Int :=
  match s.status with
  | none => -1
  | some m => m.tg

/-- `Communicator::probe(rank, tag)`: blocks until a matching message is
pending and returns its (non-null) status.  `none` models the call blocking
forever because no matching message is in the queue. -/
def probe (q : List Message) (source tag : Int) : Option Status :=
  (q.find? (msgMatches source tag)).map (fun m => Status.mk (some (metaOf m)))

/-- `Communicator::iprobe(rank, tag)`: like `probe` but non-blocking; returns
a null `Status` when no matching message is pending. -/
def iprobe (q : List Message) (source tag : Int) : Status :=
  Status.mk ((q.find? (msgMatches source tag)).map metaOf)

/-- C++ exceptions thrown by the wrapper. -/
inductive CppError where
  | logicError : String → CppError
  | invalidArgument : String → CppError
deriving DecidableEq, Repr

/-- The `std::logic_error` message of the typed receive paths. -/
def wrongSizeMsg : String :=
  "received message has wrong size for data type"

/-- The `std::invalid_argument` message of the byte `all_to_all`. -/
def alltoallBytesMsg : String :=
  "all_to_all send buffer must be divisible by the comm size"

/-- The `std::invalid_argument` message of the typed `all_to_all`. -/
def alltoallTypedMsg : String :=
  "all_to_all send buffer must equal the comm size"

/-- `Communicator::send(std::string buf, int rank, int tag)`, observed at the
destination rank: `MPI_Send` makes the message — carrying the sender's rank
`src`, the tag, and the payload — pending at the destination, appended to its
FIFO queue `q`. -/
def send (q : List Message) (buf : List Nat) (src : Int) (tag : Int) : List Message :=
  q ++ [{ src := src, tg := tag, data := buf }]

/-- `Communicator::recv(int source, int tag)` (blocking, untyped): probes
first, allocates a buffer `std::string(status.count(), 0)`, then `MPI_Recv`s
into it and returns it.  `MPI_Recv` consumes the first matching message; its
payload lands at the front of the buffer (the rest keeps its zero fill; the
receive errors if the payload exceeds the buffer, which `none` also covers).
Returns the buffer and the remaining queue; `none` models blocking forever. -/
def recv (q : List Message) (source tag : Int) : Option (List Nat × List Message) :=
  match probe q source tag with
  | none => none
  | some st =>
    match q.find? (msgMatches source tag) with
    | none => none
    | some m =>
      if m.data.length ≤ st.count.toNat then
        some (m.data ++ List.replicate (st.count.toNat - m.data.length) 0,
              q.eraseP (msgMatches source tag))
      else
        none

/-- A trivially copyable C++ type `T`, as the typed templates use it: a
carrier with a value-initialised default (`T()`), a binary size `sizeof(T)`,
and the two directions of `std::memcpy` between a value and its `sizeof(T)`
object-representation bytes.  `enc_length` is the fixed layout; `dec_enc` is
the C++ guarantee that copying the object representation of a trivially
copyable value back into a `T` reconstructs the original value. -/
structure TrivialType where
  carrier : Type
  dflt : carrier
  size : Nat
  enc : carrier → List Nat
  dec : List Nat → carrier
  enc_length : ∀ v, (enc v).length = size
  dec_enc : ∀ v, dec (enc v) = v

/-- `bool`: a one-byte trivially copyable type, used as a concrete instance. -/
def boolT : TrivialType :=
  { carrier := Bool
    dflt := false
    size := 1
    enc := fun b => [if b then 1 else 0]
    dec := fun l => l.headD 0 == 1
    enc_length := fun b => by cases b <;> rfl
    dec_enc := fun b => by cases b <;> rfl }

/-- `Communicator::send<T>(const T& value, int rank, int tag)`: memcpy the
value into a `std::string(sizeof(T), 0)` buffer and delegate to the untyped
`send`. -/
def sendTyped (T : TrivialType) (q : List Message) (value : T.carrier)
    (src : Int) (tag : Int) : List Message :=
  send q (T.enc value) src tag

/-- `Communicator::recv<T>(int rank, int tag)`: delegate to the untyped
`recv`, throw `std::logic_error` when the received byte count differs from
`sizeof(T)`, else memcpy the bytes into a `T`. -/
def recvTyped (T : TrivialType) (q : List Message) (source tag : Int) :
    Option (Except CppError T.carrier × List Message) :=
  match recv q source tag with
  | none => none
  | some (buf, q') =>
    if buf.length ≠ T.size then
      some (Except.error (CppError.logicError wrongSizeMsg), q')
    else
      some (Except.ok (T.dec buf), q')

/-- `mpi::Request`: `request` is the `MPI_Request` handle (`none` models
`MPI_REQUEST_NULL`, `some h` a live handle `h`); `buffer` is the owned byte
buffer backing the operation. -/
structure Request where
  request : Option Nat
  buffer : List Nat
deriving DecidableEq, Repr

/-- `Request::is_null()`. -/
def Request.is_null (r : Request) : Bool :=
  r.request.isNone

/-- `MPI_Wait(&request, MPI_STATUS_IGNORE)`: blocks until completion, frees
the handle and resets it to `MPI_REQUEST_NULL` (a no-op on a null request). -/
def Request.waitMPI (r : Request) : Request :=
  { r with request := none }

/-- `Request::get()` (untyped, `src/mpi-plus.cpp`): `MPI_Wait`, then return
the buffer.  Result: the returned bytes and the request afterwards. -/
def Request.get (r : Request) : List Nat × Request :=
  (r.buffer, r.waitMPI)

/-- `Request::get<T>()` (`src/mpi-plus.cpp` lines 172–189): first compare
`buffer.size()` against `sizeof(T)` and throw `std::logic_error` on mismatch
(the request is left untouched — `MPI_Wait` has not run); only then
`MPI_Wait`, value-initialise a `T` and memcpy the buffer into it.  The older
`src/unnamed/part_000` body (lines 81–96) performs the same size check before
its `wait()`.  Result: the value or error, and the request afterwards. -/
def Request.getTyped (T : TrivialType) (r : Request) :
    Except CppError T.carrier × Request :=
  if r.buffer.length ≠ T.size then
    (Except.error (CppError.logicError wrongSizeMsg), r)
  else
    (Except.ok (T.dec r.buffer), r.waitMPI)

/-- `Communicator::isend(std::string buf, int rank, int tag)`: the request
takes ownership of the buffer, `MPI_Isend` starts the operation (the message
becomes pending at the destination) and fills in a fresh live handle `next`.
Result: the owning request and the destination queue afterwards. -/
def isend (q : List Message) (buf : List Nat) (src : Int) (tag : Int)
    (next : Nat) : Request × List Message :=
  ({ request := some next, buffer := buf }, send q buf src tag)

/-- `Communicator::isend<T>`: memcpy into a `sizeof(T)` buffer, delegate to
the untyped `isend`. -/
def isendTyped (T : TrivialType) (q : List Message) (value : T.carrier)
    (src : Int) (tag : Int) (next : Nat) : Request × List Message :=
  isend q (T.enc value) src tag next

/-- `Communicator::irecv(int source, int tag)` (`src/mpi-plus.cpp` lines
479–496): `iprobe` first; on a null status return a null `Request` at once;
otherwise allocate `std::string(status.count(), 0)`, start `MPI_Irecv` into
it with a fresh live handle `next`, and hand buffer and handle to the
returned request.  The posted receive consumes the first matching message
and (at completion) its payload fills the buffer, whose length is the probed
count.  Result: the request and the queue afterwards. -/
def irecv (q : List Message) (source tag : Int) (next : Nat) :
    Request × List Message :=
  match q.find? (msgMatches source tag) with
  | none => ({ request := none, buffer := [] }, q)
  | some m =>
    ({ request := some next,
       buffer := m.data ++ List.replicate ((metaOf m).cnt.toNat - m.data.length) 0 },
     q.eraseP (msgMatches source tag))

/-- `Request::cancel()` (`src/mpi-plus.cpp` lines 102–109): if the request is
not null, `MPI_Cancel` then `MPI_Request_free` — the handle leaves the set
`live` of allocated transport handles and the field becomes
`MPI_REQUEST_NULL`.  Null requests are untouched. -/
def Request.cancel (r : Request) (live : Finset Nat) : Request × Finset Nat :=
  match r.request with
  | none => (r, live)
  | some h => ({ r with request := none }, live.erase h)

/-- `Request::~Request()` (`src/mpi-plus.cpp` lines 73–76 and
`src/unnamed/part_000` lines 37–44, identical behaviour): cancel the pending
request if there is one.  Only the effect on the live-handle set remains
observable. -/
def Request.destruct (r : Request) (live : Finset Nat) : Finset Nat :=
  (r.cancel live).2

/-- `Request::operator=(Request&&)` of `src/mpi-plus.cpp` (lines 89–96):
`cancel()` the current request, then steal the other's buffer and handle,
nulling the other.  Result: the new `*this`, the moved-from other, and the
live-handle set afterwards. -/
def moveAssign (self other : Request) (live : Finset Nat) :
    Request × Request × Finset Nat :=
  let p := self.cancel live
  ({ request := other.request, buffer := other.buffer },
   { request := none, buffer := [] }, p.2)

/-- `Request::operator=(Request&&)` of `src/unnamed/part_000` (lines 48–54):
steals the other's buffer and handle WITHOUT cancelling the current request
first — the previously tracked handle stays in the live set with no owner. -/
def moveAssignPart000 (_self other : Request) (live : Finset Nat) :
    Request × Request × Finset Nat :=
  ({ request := other.request, buffer := other.buffer },
   { request := none, buffer := [] }, live)

/-- The group data an `MPI_Comm` refers to: the number of ranks in the group
and the calling process's rank within it.  `MPI_Comm_dup` produces a new
communicator over the same group, so duplication preserves this data. -/
structure CommData where
  nranks : Nat
  myrank : Nat
deriving DecidableEq, Repr

/-- A live communicator handle: a distinguishing identity (fresh per
`MPI_Comm_dup`) plus the group data it refers to. -/
structure CommHandle where
  id : Nat
  data : CommData
deriving DecidableEq, Repr

/-- `mpi::Communicator`: the `comm` field is either `MPI_COMM_NULL` (`none`,
the default-constructed state) or a live handle. -/
abbrev Communicator := Option CommHandle

/-- Allocation state for fresh communicator handles produced by
`MPI_Comm_dup`. -/
structure CommST where
  next : Nat
deriving DecidableEq, Repr

/-- `MPI_Comm_dup(other.comm, &comm)`: a fresh handle over the same group. -/
def commDup (h : CommHandle) (st : CommST) : CommHandle × CommST :=
  ({ id := st.next, data := h.data }, { next := st.next + 1 })

/-- `Communicator::close()` (lines 364–371): `MPI_Comm_free` then
`comm = MPI_COMM_NULL` when non-null; a no-op on a null communicator. -/
def Communicator.close (_c : Communicator) : Communicator :=
  none

/-- `Communicator::is_null()`. -/
def Communicator.is_null (c : Communicator) : Bool :=
  c.isNone

/-- Copy constructor `Communicator(const Communicator&)` (lines 300–306):
start from `MPI_COMM_NULL`, duplicate the source's communicator unless the
source is null. -/
def copyCtor (other : Communicator) (st : CommST) : Communicator × CommST :=
  match other with
  | none => (none, st)
  | some h =>
    let p := commDup h st
    (some p.1, p.2)

/-- `Communicator::operator=(const Communicator&)` (lines 336–345) for the
case where `other` is a distinct object: `close()` this communicator, then
duplicate `other` unless it is null. -/
def copyAssign (self other : Communicator) (st : CommST) :
    Communicator × CommST :=
  let self1 := self.close
  match other with
  | none => (self1, st)
  | some h =>
    let p := commDup h st
    (some p.1, p.2)

/-- `Communicator::operator=(const Communicator&)` (lines 336–345) in the
self-assignment case `c = c`, where `other` aliases `*this`: after `close()`
the aliased `other.is_null()` reads the just-nulled `comm` field, so the
subsequent test sees `self1`, the closed state, not the original value. -/
def copyAssignSelf (self : Communicator) (st : CommST) :
    Communicator × CommST :=
  let self1 := self.close
  match self1 with
  | none => (self1, st)
  | some h =>
    let p := commDup h st
    (some p.1, p.2)

/-- `Communicator::size()` (lines 388–398): `0` on a null communicator, else
`MPI_Comm_size`, the number of ranks in the group. -/
def Communicator.size (c : Communicator) : Int :=
  match c with
  | none => 0
  | some h => Int.ofNat h.data.nranks

/-- `Communicator::rank()` (lines 406–416): `-1` on a null communicator, else
`MPI_Comm_rank`. -/
def Communicator.rank (c : Communicator) : Int :=
  match c with
  | none => -1
  | some h => Int.ofNat h.data.myrank

/-- Result of running a C++ call that may throw or may reach undefined
behaviour (here: integral `%` or `/` with divisor zero). -/
inductive CRes (α : Type) where
  | ub : CRes α
  | thrown : CppError → CRes α
  | ok : α → CRes α
deriving DecidableEq, Repr

/-- C++ integral `%`: undefined (no value) when the divisor is zero. -/
def cppMod (a b : Nat) : Option Nat :=
  if b = 0 then none else some (a % b)

/-- The share of `buf` destined for (or coming from) rank `i` when `buf` is
partitioned into consecutive blocks of `k` elements: elements
`i*k, …, i*k + k - 1`. -/
def alltoallShare (k : Nat) (buf : List α) (i : Nat) : List α :=
  (buf.drop (i * k)).take k

/-- `MPI_Alltoall` over `N` ranks with blocks of `k` elements, as observed by
rank `me`: the receive buffer is the concatenation, over senders
`j = 0, …, N-1`, of the share of rank `j`'s send buffer destined for `me`. -/
def mpiAlltoall (N k : Nat) (sends : Nat → List α) (me : Nat) : List α :=
  (List.range N).flatMap (fun j => alltoallShare k (sends j) me)

/-- `Communicator::all_to_all(const std::string&)` (lines 588–602), executed
on rank `me` of an `N`-rank group where rank `j`'s send buffer is `sends j`:
evaluate `sendbuf.size() % size()` (undefined behaviour when `N = 0`), throw
`std::invalid_argument` when the remainder is nonzero, else exchange blocks
of `sendbuf.size() / size()` bytes and return the receive buffer. -/
def allToAllBytes (N me : Nat) (sends : Nat → List Nat) : CRes (List Nat) :=
  match cppMod (sends me).length N with
  | none => CRes.ub
  | some r =>
    if r ≠ 0 then
      CRes.thrown (CppError.invalidArgument alltoallBytesMsg)
    else
      CRes.ok (mpiAlltoall N ((sends me).length / N) sends me)

/-- `Communicator::all_to_all(const std::string&)` as a method: the group
size and calling rank come from the communicator; on a null communicator
`size()` is `0` and `rank()` is `-1` (the rank is irrelevant there — the
divisor of the guard is already zero). -/
def Communicator.all_to_all (c : Communicator) (sends : Nat → List Nat) :
    CRes (List Nat) :=
  match c with
  | none => allToAllBytes 0 0 sends
  | some h => allToAllBytes h.data.nranks h.data.myrank sends

/-- `Communicator::all_to_all(const std::vector<T>&)` (lines 609–626),
executed on rank `me` of an `N`-rank group where rank `j` sends `sends j`:
throw `std::invalid_argument` when `sendbuf.size() != size()`; otherwise the
`MPI_Alltoall` call computes `sendbuf.size() / size()` (undefined behaviour
when `N = 0`, reachable only with an empty buffer) and exchanges blocks of
one element, so rank `me` receives element `me` of every rank's vector. -/
def allToAllTyped (T : TrivialType) (N me : Nat)
    (sends : Nat → List T.carrier) : CRes (List T.carrier) :=
  if (sends me).length ≠ N then
    CRes.thrown (CppError.invalidArgument alltoallTypedMsg)
  else if N = 0 then
    CRes.ub
  else
    CRes.ok (mpiAlltoall N ((sends me).length / N) sends me)

/-! ## Theorems settling the claims -/

/-- C9: null-state accessors degrade to sentinel values and never fail:
`size()` returns `0` and `rank()` returns `-1` on a null communicator, and a
null `Status` — as `iprobe` returns when no matching message is pending — has
`is_null()` true while `count()`, `source()` and `tag()` return `0`, `-1` and
`-1`. -/
theorem null_state_accessors :
    Communicator.size none = 0 ∧ Communicator.rank none = -1 ∧
    ∀ (q : List Message) (s t : Int), q.find? (msgMatches s t) = none →
      (iprobe q s t).is_null = true ∧ (iprobe q s t).count = 0 ∧
      (iprobe q s t).source = -1 ∧ (iprobe q s t).tag = -1 := by
  refine ⟨rfl, rfl, ?_⟩
  intro q s t h
  simp [iprobe, h, Status.is_null, Status.count, Status.source, Status.tag]

/-- Witness for C9 at the empty (idle) queue. -/
theorem null_state_accessors_witness :
    (iprobe [] 0 0).is_null = true ∧ (iprobe [] 0 0).count = 0 ∧
    (iprobe [] 0 0).source = -1 ∧ (iprobe [] 0 0).tag = -1 :=
  null_state_accessors.2.2 [] 0 0 rfl

/-- C2: the untyped blocking `recv` probes for the pending message's byte
count, allocates a buffer of exactly that size and receives into it, so the
returned buffer's length equals the `count()` an equivalent `probe` on the
same message reports. -/
theorem recv_length_eq_probe_count (q : List Message) (s t : Int) (st : Status)
    (h : probe q s t = some st) :
    ∃ buf q', recv q s t = some (buf, q') ∧ Int.ofNat buf.length = st.count := by
  unfold probe at h
  cases hf : q.find? (msgMatches s t) with
  | none => simp [hf] at h
  | some m =>
    simp [hf] at h
    subst h
    refine ⟨m.data, q.eraseP (msgMatches s t), ?_, rfl⟩
    unfold recv probe
    rw [hf]
    simp [Status.count, metaOf]

/-- Witness for C2 on a queue holding one two-byte message. -/
theorem recv_length_eq_probe_count_witness :
    ∃ buf q', recv [Message.mk 0 0 [7, 9]] 0 0 = some (buf, q') ∧
      Int.ofNat buf.length = (Status.mk (some (MsgMeta.mk 0 0 2))).count :=
  recv_length_eq_probe_count [Message.mk 0 0 [7, 9]] 0 0
    (Status.mk (some (MsgMeta.mk 0 0 2))) (by decide)

/-- C7: for every trivially copyable `T`, both `recv<T>` and
`Request::get<T>()` raise a `std::logic_error` when the received byte count
differs from `sizeof(T)` — never truncating or padding — and return the
memcpy-reconstructed value exactly when the byte count equals `sizeof(T)`. -/
theorem typed_size_mismatch_error (T : TrivialType) (q : List Message)
    (s t : Int) (buf : List Nat) (q' : List Message)
    (h : recv q s t = some (buf, q')) :
    (buf.length ≠ T.size →
      recvTyped T q s t =
        some (Except.error (CppError.logicError wrongSizeMsg), q')) ∧
    (buf.length = T.size →
      recvTyped T q s t = some (Except.ok (T.dec buf), q')) ∧
    ∀ r : Request,
      (r.buffer.length ≠ T.size →
        Request.getTyped T r =
          (Except.error (CppError.logicError wrongSizeMsg), r)) ∧
      (r.buffer.length = T.size →
        Request.getTyped T r = (Except.ok (T.dec r.buffer), r.waitMPI)) := by
  refine ⟨?_, ?_, ?_⟩
  · intro hne
    unfold recvTyped
    rw [h]
    simp [hne]
  · intro heq
    unfold recvTyped
    rw [h]
    simp [heq]
  · intro r
    constructor
    · intro hne
      unfold Request.getTyped
      simp [hne]
    · intro heq
      unfold Request.getTyped
      simp [heq]

/-- Witness for C7 with `T = bool`: a one-byte message decodes, a two-byte
buffer raises the usage error. -/
theorem typed_size_mismatch_error_witness :
    recvTyped boolT [Message.mk 0 0 [1]] 0 0 = some (Except.ok true, []) ∧
    Request.getTyped boolT (Request.mk (some 5) [1, 2]) =
      (Except.error (CppError.logicError wrongSizeMsg), Request.mk (some 5) [1, 2]) :=
  ⟨(typed_size_mismatch_error boolT [Message.mk 0 0 [1]] 0 0 [1] []
      (by decide)).2.1 rfl,
   ((typed_size_mismatch_error boolT [Message.mk 0 0 [1]] 0 0 [1] []
      (by decide)).2.2 (Request.mk (some 5) [1, 2])).1 (by decide)⟩

/-- A message built by the sender with `(source, tag)` fields equal to the
`(source, tag)` the receiver asks for always matches. -/
theorem msgMatches_self (s t : Int) (d : List Nat) :
    msgMatches s t (Message.mk s t d) = true := by
  simp [msgMatches]

/-- C1: for every trivially copyable `T` and value `v`, the typed blocking
`send<T>` (memcpy into a `sizeof(T)` buffer) followed by the matching typed
blocking `recv<T>` — or by `isend<T>`/`irecv` and typed `get<T>` —
reconstructs a value bitwise identical to `v`. -/
theorem typed_send_recv_roundtrip (T : TrivialType) (v : T.carrier)
    (s t : Int) (n n' : Nat) :
    recvTyped T (sendTyped T [] v s t) s t = some (Except.ok v, []) ∧
    (Request.getTyped T (irecv (isendTyped T [] v s t n).2 s t n').1).1 =
      Except.ok v := by
  constructor
  · unfold recvTyped recv probe sendTyped send
    simp [msgMatches_self, metaOf, Status.count, T.enc_length, T.dec_enc,
      List.eraseP]
  · unfold Request.getTyped irecv isendTyped isend send
    simp [msgMatches_self, metaOf, T.enc_length, T.dec_enc]

/-- C3 counterexample: calling `get<T>` on a pending request whose buffer
size mismatches `sizeof(T)` raises the usage error WITHOUT the blocking wait
having happened — the tracked handle is still live afterwards, refuting the
claim that the wait precedes the size validation (a wait would have reset
the handle to `MPI_REQUEST_NULL`). -/
theorem getTyped_mismatch_skips_wait_cex :
    (Request.getTyped boolT (Request.mk (some 0) [1, 2])).1 =
      Except.error (CppError.logicError wrongSizeMsg) ∧
    (Request.getTyped boolT (Request.mk (some 0) [1, 2])).2.request = some 0 ∧
    ¬ (Request.getTyped boolT (Request.mk (some 0) [1, 2])).2.request = none :=
  ⟨rfl, rfl, by decide⟩

/-- C3 (amended): `Request::get<T>()` validates the owned buffer's size
against `sizeof(T)` FIRST, raising a usage error on mismatch without waiting
(the request keeps its handle), and only when the sizes match does it block
in `MPI_Wait` (nulling the handle) and reconstruct a `T` by raw byte
reinterpretation of the buffer. -/
theorem getTyped_validates_before_wait (T : TrivialType) (r : Request) :
    (r.buffer.length ≠ T.size →
      Request.getTyped T r =
        (Except.error (CppError.logicError wrongSizeMsg), r) ∧
      (Request.getTyped T r).2.request = r.request) ∧
    (r.buffer.length = T.size →
      Request.getTyped T r = (Except.ok (T.dec r.buffer), r.waitMPI) ∧
      (Request.getTyped T r).2.request = none) := by
  constructor
  · intro hne
    unfold Request.getTyped
    simp [hne]
  · intro heq
    unfold Request.getTyped
    simp [heq, Request.waitMPI]

/-- Witness for C3's amended theorem: a wrong-size pending request errors and
stays pending; a right-size one yields the decoded value and a null handle. -/
theorem getTyped_validates_before_wait_witness :
    ((Request.getTyped boolT (Request.mk (some 4) [1, 2]) =
        (Except.error (CppError.logicError wrongSizeMsg),
         Request.mk (some 4) [1, 2]) ∧
      (Request.getTyped boolT (Request.mk (some 4) [1, 2])).2.request = some 4) ∧
     (Request.getTyped boolT (Request.mk (some 7) [1]) =
        (Except.ok true, (Request.mk (some 7) [1]).waitMPI) ∧
      (Request.getTyped boolT (Request.mk (some 7) [1])).2.request = none)) :=
  ⟨(getTyped_validates_before_wait boolT (Request.mk (some 4) [1, 2])).1
      (by decide),
   (getTyped_validates_before_wait boolT (Request.mk (some 7) [1])).2 rfl⟩

/-- C8: `irecv` performs a non-blocking probe first: when no matching message
is pending it returns a null `Request` immediately, leaving the queue
untouched; when one is pending it consumes it and returns a non-null owning
`Request` whose buffer length is exactly the probed byte count. -/
theorem irecv_probe_first (q : List Message) (s t : Int) (n : Nat) :
    ((iprobe q s t).is_null = true →
      irecv q s t n = (Request.mk none [], q) ∧
      (irecv q s t n).1.is_null = true) ∧
    ∀ m, q.find? (msgMatches s t) = some m →
      (irecv q s t n).1.request = some n ∧
      (irecv q s t n).1.is_null = false ∧
      Int.ofNat (irecv q s t n).1.buffer.length = (iprobe q s t).count ∧
      (irecv q s t n).2 = q.eraseP (msgMatches s t) := by
  constructor
  · intro hnull
    have hf : q.find? (msgMatches s t) = none := by
      by_contra hne
      rcases Option.ne_none_iff_exists.mp hne with ⟨m, hm⟩
      simp [iprobe, Status.is_null, ← hm] at hnull
    unfold irecv
    rw [hf]
    exact ⟨rfl, rfl⟩
  · intro m hm
    unfold irecv
    rw [hm]
    refine ⟨rfl, rfl, ?_, rfl⟩
    simp [iprobe, hm, Status.count, metaOf]

/-- Witness for C8: the empty queue gives a null request; a queue holding one
two-byte message gives a pending request with a two-byte buffer. -/
theorem irecv_probe_first_witness :
    (irecv [] 0 0 3 = (Request.mk none [], []) ∧
      (irecv [] 0 0 3).1.is_null = true) ∧
    ((irecv [Message.mk 0 0 [4, 5]] 0 0 3).1.request = some 3 ∧
      (irecv [Message.mk 0 0 [4, 5]] 0 0 3).1.is_null = false ∧
      Int.ofNat (irecv [Message.mk 0 0 [4, 5]] 0 0 3).1.buffer.length =
        (iprobe [Message.mk 0 0 [4, 5]] 0 0).count ∧
      (irecv [Message.mk 0 0 [4, 5]] 0 0 3).2 =
        [Message.mk 0 0 [4, 5]].eraseP (msgMatches 0 0)) :=
  ⟨(irecv_probe_first [] 0 0 3).1 rfl,
   (irecv_probe_first [Message.mk 0 0 [4, 5]] 0 0 3).2
      (Message.mk 0 0 [4, 5]) (by decide)⟩

/-- Segment `j` of the flattening of equal-length blocks is block `j`. -/
theorem flatten_seg {α : Type} (k : Nat) :
    ∀ (L : List (List α)) (j : Nat) (hj : j < L.length),
      (∀ l ∈ L, l.length = k) →
      (L.flatten.drop (j * k)).take k = L.get ⟨j, hj⟩ := by
  intro L
  induction L with
  | nil =>
    intro j hj _
    exact absurd hj (Nat.not_lt_zero j)
  | cons a L ih =>
    intro j hj hlen
    have ha : a.length = k := hlen a (List.mem_cons_self a L)
    cases j with
    | zero =>
      rw [List.flatten_cons, Nat.zero_mul, List.drop_zero]
      exact List.take_left' ha
    | succ j =>
      have hstep : (j + 1) * k = a.length + j * k := by
        rw [ha, Nat.succ_mul, Nat.add_comm]
      rw [List.flatten_cons, hstep, List.drop_append]
      exact ih j (Nat.lt_of_succ_lt_succ hj)
        (fun l hl => hlen l (List.mem_cons_of_mem a hl))

/-- Every destined share cut out of a full-length send buffer has exactly
the block length `k`. -/
theorem alltoallShare_length {α : Type} (N k me : Nat) (hme : me < N)
    (buf : List α) (hbuf : buf.length = N * k) :
    (alltoallShare k buf me).length = k := by
  have h1 : (me + 1) * k ≤ N * k := Nat.mul_le_mul_right k hme
  rw [Nat.succ_mul] at h1
  simp [alltoallShare, hbuf]
  omega

/-- Received segment `j` of an `MPI_Alltoall` exchange is the share of rank
`j`'s send buffer destined for the calling rank. -/
theorem mpiAlltoall_seg {α : Type} (N k me : Nat) (hme : me < N)
    (sends : Nat → List α) (hlen : ∀ i, i < N → (sends i).length = N * k) :
    ∀ j, j < N →
      ((mpiAlltoall N k sends me).drop (j * k)).take k =
        alltoallShare k (sends j) me := by
  intro j hj
  have hL : ∀ l ∈ (List.range N).map (fun i => alltoallShare k (sends i) me),
      l.length = k := by
    intro l hl
    rcases List.mem_map.mp hl with ⟨i, hi, rfl⟩
    exact alltoallShare_length N k me hme (sends i)
      (hlen i (List.mem_range.mp hi))
  have hjlt : j < ((List.range N).map
      (fun i => alltoallShare k (sends i) me)).length := by
    simpa using hj
  have := flatten_seg k ((List.range N).map
      (fun i => alltoallShare k (sends i) me)) j hjlt hL
  rw [mpiAlltoall, List.flatMap_def, this]
  simp

/-- C4 counterexample: the typed `all_to_all` requires the send buffer's
length to EQUAL the group size, not merely be divisible by it — on a 2-rank
group a 4-element vector (length divisible by 2) raises the usage error,
refuting the claimed "error iff not divisible" for the typed element form. -/
theorem allToAllTyped_divisible_thrown_cex :
    allToAllTyped boolT 2 0 (fun _ => [true, true, false, false]) =
      CRes.thrown (CppError.invalidArgument alltoallTypedMsg) ∧
    4 % 2 = 0 :=
  ⟨rfl, rfl⟩

/-- C4 (amended): on a non-null group of `N` ranks, the byte-string
`all_to_all` raises a usage error exactly when the buffer length is not
divisible by `N`, and on uniform length `N * k` returns the exchange whose
segment for sender `j` is the share rank `j` sent destined for the calling
rank; the typed element form instead raises its usage error exactly when the
element count differs from `N` (one element per rank), and on count `N`
returns the exchange whose element `j` is rank `j`'s element for the calling
rank. -/
theorem all_to_all_guard_and_exchange (N me k : Nat) (hN : 0 < N)
    (hme : me < N) (sends : Nat → List Nat) (T : TrivialType)
    (tsends : Nat → List T.carrier) :
    (¬ (N ∣ (sends me).length) →
      allToAllBytes N me sends =
        CRes.thrown (CppError.invalidArgument alltoallBytesMsg)) ∧
    ((∀ i, i < N → (sends i).length = N * k) →
      allToAllBytes N me sends = CRes.ok (mpiAlltoall N k sends me) ∧
      ∀ j, j < N →
        ((mpiAlltoall N k sends me).drop (j * k)).take k =
          alltoallShare k (sends j) me) ∧
    ((tsends me).length ≠ N →
      allToAllTyped T N me tsends =
        CRes.thrown (CppError.invalidArgument alltoallTypedMsg)) ∧
    ((∀ i, i < N → (tsends i).length = N) →
      allToAllTyped T N me tsends = CRes.ok (mpiAlltoall N 1 tsends me) ∧
      ∀ j, j < N →
        ((mpiAlltoall N 1 tsends me).drop (j * 1)).take 1 =
          alltoallShare 1 (tsends j) me) := by
  refine ⟨?_, ?_, ?_, ?_⟩
  · intro hndvd
    have hr : (sends me).length % N ≠ 0 := by
      intro h
      exact hndvd (Nat.dvd_iff_mod_eq_zero.mpr h)
    simp [allToAllBytes, cppMod, hN.ne', hr]
  · intro hlen
    have hme' : (sends me).length = N * k := hlen me hme
    have hdvd : (sends me).length % N = 0 := by
      rw [hme']
      exact Nat.mul_mod_right N k
    have hdiv : (sends me).length / N = k := by
      rw [hme']
      exact Nat.mul_div_cancel_left k hN
    constructor
    · simp [allToAllBytes, cppMod, hN.ne', hdvd, hdiv]
    · exact mpiAlltoall_seg N k me hme sends hlen
  · intro hne
    simp [allToAllTyped, hne]
  · intro hlen
    have hme' : (tsends me).length = N := hlen me hme
    have hdiv : (tsends me).length / N = 1 := by
      rw [hme']
      exact Nat.div_self hN
    constructor
    · simp [allToAllTyped, hme', hN.ne', Nat.div_self hN]
    · exact mpiAlltoall_seg N 1 me hme tsends
        (fun i hi => by rw [Nat.mul_one]; exact hlen i hi)

/-- Witness for C4's amended theorem on a 2-rank group: a 3-byte buffer is
rejected, a 2-byte buffer and a 2-element typed buffer are exchanged. -/
theorem all_to_all_guard_and_exchange_witness :
    allToAllBytes 2 0 (fun _ => [3, 4, 5]) =
      CRes.thrown (CppError.invalidArgument alltoallBytesMsg) ∧
    allToAllBytes 2 0 (fun _ => [3, 4]) =
      CRes.ok (mpiAlltoall 2 1 (fun _ => [3, 4]) 0) ∧
    allToAllTyped boolT 2 0 (fun _ => [true, false]) =
      CRes.ok (mpiAlltoall 2 1 (fun _ => [true, false]) 0) :=
  ⟨(all_to_all_guard_and_exchange 2 0 1 (by decide) (by decide)
      (fun _ => [3, 4, 5]) boolT (fun _ => [true, false])).1 (by decide),
   ((all_to_all_guard_and_exchange 2 0 1 (by decide) (by decide)
      (fun _ => [3, 4]) boolT (fun _ => [true, false])).2.1
      (fun _ _ => rfl)).1,
   ((all_to_all_guard_and_exchange 2 0 1 (by decide) (by decide)
      (fun _ => [3, 4]) boolT (fun _ => [true, false])).2.2.2
      (fun _ _ => rfl)).1⟩

/-- C5: `src/mpi-plus.cpp`'s destructor and move assignment cancel and
release a still-pending operation — the handle leaves the live set and the
overwritten request takes the other's state, so dropped requests leave no
dangling handle — but `src/unnamed/part_000`'s move assignment overwrites a
pending request WITHOUT cancelling: at the concrete failing input (a request
tracking handle `0`, live set `{0}`, overwritten by a null request) the old
handle stays allocated with no owner, contradicting the claim. -/
theorem request_drop_cancellation :
    (∀ (h : Nat) (buf : List Nat) (live : Finset Nat),
      Request.destruct (Request.mk (some h) buf) live = live.erase h) ∧
    (∀ (h : Nat) (buf : List Nat) (other : Request) (live : Finset Nat),
      (moveAssign (Request.mk (some h) buf) other live).2.2 = live.erase h ∧
      (moveAssign (Request.mk (some h) buf) other live).1.request =
        other.request) ∧
    (moveAssignPart000 (Request.mk (some 0) [7]) (Request.mk none [])
        {0}).2.2 = {0} ∧
    (moveAssignPart000 (Request.mk (some 0) [7]) (Request.mk none [])
        {0}).1.request = none := by
  exact ⟨fun _ _ _ => rfl, fun _ _ _ _ => ⟨rfl, rfl⟩, rfl, rfl⟩

/-- C6 counterexample: self-assigning a non-null communicator leaves it
NULL, not holding a group equivalent to the one it held: `close()` runs
before `other` (which aliases `*this`) is inspected, so the just-nulled
field is read and the duplication branch is skipped. -/
theorem copyAssignSelf_nulls_cex :
    (copyAssignSelf (some (CommHandle.mk 0 (CommData.mk 4 1)))
        (CommST.mk 1)).1 = none ∧
    (some (CommHandle.mk 0 (CommData.mk 4 1)) : Communicator) ≠ none := by
  exact ⟨rfl, by decide⟩

/-- C6 (amended): copy construction and copy assignment onto a DISTINCT
object duplicate the source's group when it is non-null (a fresh handle over
the same group data) and produce a null communicator when the source is
null; self-assignment, however, is not value-preserving: because the
assignment first releases the current state and only then reads the source
through the alias, assigning a non-null communicator to itself leaves it
null. -/
theorem communicator_copy_semantics (st : CommST) (h : CommHandle)
    (self : Communicator) :
    copyCtor none st = (none, st) ∧
    copyCtor (some h) st =
      (some (CommHandle.mk st.next h.data), CommST.mk (st.next + 1)) ∧
    copyAssign self none st = (none, st) ∧
    copyAssign self (some h) st =
      (some (CommHandle.mk st.next h.data), CommST.mk (st.next + 1)) ∧
    copyAssignSelf none st = (none, st) ∧
    copyAssignSelf (some h) st = (none, st) :=
  ⟨rfl, rfl, rfl, rfl, rfl, rfl⟩

/-- C10: the byte `all_to_all`'s divisibility check computes
`sendbuf.size() % size()` with no zero-divisor guard: on a null communicator
`size()` is `0` and evaluating the check is a division by zero (undefined
behaviour), not a reported usage error; under the precondition `size() > 0`
the guard is well defined and the call never reaches undefined behaviour. -/
theorem all_to_all_null_comm_ub :
    Communicator.size none = 0 ∧
    (∀ sends, Communicator.all_to_all none sends = CRes.ub) ∧
    (∀ (N me : Nat) (sends : Nat → List Nat), 0 < N →
      allToAllBytes N me sends ≠ CRes.ub) := by
  refine ⟨rfl, fun sends => rfl, ?_⟩
  intro N me sends hN
  unfold allToAllBytes cppMod
  rw [if_neg hN.ne']
  by_cases hr : (sends me).length % N ≠ 0 <;> simp [hr]

/-- Witness for C10's well-definedness part at a 1-rank group. -/
theorem all_to_all_null_comm_ub_witness :
    allToAllBytes 1 0 (fun _ => [9]) ≠ CRes.ub :=
  all_to_all_null_comm_ub.2.2 1 0 (fun _ => [9]) (by decide)

end mpi
